import Mathlib

/-!
Verification development for the `sec_extractor` section boundary extraction
engine (`src/extractors/section.rs`).

Modelling choices, stated once here:

* Rust strings are modelled as byte lists (`Bytes`).  Rust's byte-offset
  slicing `&s[a..b]` panics when an index is out of bounds or not on a UTF-8
  character boundary; this is modelled by `rSlice`, which returns
  `Except String Bytes`, the `.error` case standing for a panic.  All
  engine functions propagate the panic case, so `extractItem8 … = .error m`
  means the Rust call panics.

* The `regex` crate is an external dependency of the repository, not code of
  the repository, so it is modelled as an oracle (`RegexEnv`) supplying the
  results of `Regex::new` (`newOk`), `find`, `find_iter` and capture group 1
  (`capt1`) for a given pattern string (kept as a byte list used as a key)
  and a given haystack.  Universal theorems quantify over the oracle.
  Concrete inputs come with a concrete oracle built from literal-substring
  search (`litFind`/`litFindIter`): for those concrete documents the
  regular expressions used on the consulted haystacks match exactly the
  occurrences of the stated literals, which a reader can check by hand
  against the pattern.  Entries for patterns a concrete run never consults
  are irrelevant to the run and default to "no match".

* `to_lowercase` is modelled by `asciiLower` (ASCII case folding); all
  concrete documents are ASCII except where a non-ASCII byte sequence is the
  point of the statement.  `str::contains` is `isInfixB`.

* `tracing` log statements have no observable effect and are omitted.
  The `debug_info` map of `extract_item_8` (a `HashMap` with
  insert-replaces-value semantics) is modelled as an association list by
  `insertDbg`; `extractItem8Debug` exposes it next to the result, and
  `extractItem8` is its first projection, matching the Rust return value.
-/

/-- Byte strings: Rust `&str`/`String` as a list of byte values. -/
abbrev Bytes := List Nat

/-- Encode an ASCII Lean string literal as bytes (code points; used for ASCII
documents and for pattern strings, where the encoding only serves as a key). -/
def strB (s : String) : Bytes := s.data.map Char.toNat

/-- Bytewise prefix test. -/
def isPrefixB : Bytes → Bytes → Bool
  | [], _ => true
  | _ :: _, [] => false
  | a :: as, b :: bs2 => a == b && isPrefixB as bs2

/-- Leftmost occurrence of `lit` in `t`, returning its start index offset by `i`. -/
def litFindAux (lit : Bytes) : Bytes → Nat → Option Nat
  | [], i => if isPrefixB lit [] then some i else none
  | b :: rest, i =>
    if isPrefixB lit (b :: rest) then some i else litFindAux lit rest (i + 1)

/-- Rust `str::contains` on bytes. -/
def isInfixB (lit t : Bytes) : Bool := (litFindAux lit t 0).isSome

/-- Leftmost match of a literal, as a `(start, end)` byte span. -/
def litFind (lit t : Bytes) : Option (Nat × Nat) :=
  (litFindAux lit t 0).map fun i => (i, i + lit.length)

/-- Successive non-overlapping leftmost matches of a literal, Rust `find_iter`. -/
def litFindIterAux (lit : Bytes) : Nat → Bytes → Nat → List (Nat × Nat)
  | 0, _, _ => []
  | fuel + 1, t, base =>
    match litFindAux lit t 0 with
    | none => []
    | some i =>
      (base + i, base + i + lit.length) ::
        litFindIterAux lit fuel (t.drop (i + lit.length)) (base + i + lit.length)

/-- All non-overlapping matches of a literal in `t`. -/
def litFindIter (lit t : Bytes) : List (Nat × Nat) :=
  litFindIterAux lit (t.length + 1) t 0

/-- ASCII case folding, modelling `str::to_lowercase` on ASCII content. -/
def asciiLower (s : Bytes) : Bytes :=
  s.map fun b => if 65 ≤ b ∧ b ≤ 90 then b + 32 else b

/-- Rust `str::is_char_boundary`: index 0 or the string length is a boundary,
an in-range index is a boundary iff the byte there is not a UTF-8
continuation byte. -/
def isCharBoundary (s : Bytes) (i : Nat) : Bool :=
  if i = 0 then true
  else if i = s.length then true
  else if i > s.length then false
  else
    let b := s.getD i 0
    decide (b < 128 ∨ 192 ≤ b)

/-- Panic-aware computation: `.error` is a Rust panic. -/
abbrev PRes (α : Type) := Except String α

/-- The panic message used for every modelled slice failure. -/
def slicePanic : String := "byte index is out of bounds or not a char boundary"

/-- Rust byte slicing `&s[a..b]`: panics unless `a ≤ b ≤ len` and both ends
are char boundaries. -/
def rSlice (s : Bytes) (a b : Nat) : PRes Bytes :=
  if a ≤ b ∧ isCharBoundary s a ∧ isCharBoundary s b then
    .ok ((s.drop a).take (b - a))
  else .error slicePanic

/-- Rust `str::parse::<usize>` on an ASCII-digit string (the only shape the
engine's environment variable takes): all-digit and non-empty, else `none`. -/
def parseUsize (v : Bytes) : Option Nat :=
  if v ≠ [] ∧ v.all (fun b => 48 ≤ b ∧ b ≤ 57) then
    some (v.foldl (fun acc b => acc * 10 + (b - 48)) 0)
  else none

/-- `get_min_section_size` (section.rs lines 10–15): reads the
`MIN_SECTION_SIZE` environment variable, `unwrap_or(50)` on parse failure and
50 when the variable is unset.  The ambient variable is passed in explicitly
as `envVar`. -/
def getMinSectionSize (envVar : Option Bytes) : Nat :=
  match envVar with
  | some val => (parseUsize val).getD 50
  | none => 50

/-- Oracle for the `regex` crate: results of `Regex::new` (success flag),
`find` (leftmost match span), `find_iter` (all non-overlapping match spans,
haystack-relative) and `captures`/group 1 span, per pattern string. -/
structure RegexEnv where
  newOk : Bytes → Bool
  find : Bytes → Bytes → Option (Nat × Nat)
  findIter : Bytes → Bytes → List (Nat × Nat)
  capt1 : Bytes → Bytes → Option (Nat × Nat)

/-- Look up a pattern in a literal table. -/
def tblLookup (tbl : List (Bytes × Bytes)) (p : Bytes) : Option Bytes :=
  match tbl with
  | [] => none
  | (k, v) :: rest => if k = p then some v else tblLookup rest p

/-- Build a concrete oracle from a pattern ↦ literal table: every pattern in
the table matches exactly the occurrences of its literal; every pattern
outside the table matches nothing. -/
def mkEnv (tbl : List (Bytes × Bytes)) : RegexEnv where
  newOk := fun _ => true
  find := fun p t =>
    match tblLookup tbl p with
    | some lit => litFind lit t
    | none => none
  findIter := fun p t =>
    match tblLookup tbl p with
    | some lit => litFindIter lit t
    | none => []
  capt1 := fun _ _ => none

/-! ### Pattern strings from `section.rs`, kept verbatim as oracle keys -/

/-- ToC indicator 1 (section.rs line 21). -/
def pTocHeading : Bytes :=
  strB "(?i)<h[1-6][^>]*>\\s*(?:table\\s+of\\s+contents|index|contents)\\s*</h[1-6]>"

/-- ToC indicator 2 (line 23). -/
def pTocDiv : Bytes :=
  strB "(?i)<div[^>]*class=[\x27\"]?(?:toc|tableOfContents|index)[\x27\"]?[^>]*>"

/-- ToC indicator 3 (line 24). -/
def pTocPlain : Bytes := strB "(?i)table\\s+of\\s+contents"

/-- The ToC indicator list of `is_in_table_of_contents`. -/
def tocIndicators : List Bytes := [pTocHeading, pTocDiv, pTocPlain]

/-- End-of-ToC marker 1 (line 38). -/
def eTocDivH : Bytes := strB "(?i)</div>\\s*<h[1-6]"

/-- End-of-ToC marker 2 (line 39). -/
def eTocNav : Bytes := strB "(?i)</nav>"

/-- End-of-ToC marker 3 (line 40). -/
def eTocHr : Bytes := strB "(?i)<hr"

/-- End-of-ToC marker 4 (line 41). -/
def eTocPartI : Bytes := strB "(?i)<h[1-6][^>]*>\\s*PART\\s+I\\s*</h[1-6]>"

/-- The end-of-ToC marker list of `is_in_table_of_contents`. -/
def endTocMarkers : List Bytes := [eTocDivH, eTocNav, eTocHr, eTocPartI]

/-- ToC-link pattern of `TocExtractionStrategy` (line 253). -/
def pTocLink : Bytes :=
  strB "(?i)<a[^>]*href=\"[^\"]*(?:item[_\\-]?8|financial[_\\-]statements)[^\"]*\"[^>]*>.*?item\\s*8.*?</a>"

/-- `href` capture pattern (line 257). -/
def pHref : Bytes := strB "href=\"([^\"]*)\""

/-- Anchor pattern builder for fragment hrefs (line 265). -/
def anchorPatHash (frag : Bytes) : Bytes :=
  strB "(?i)<[^>]*(?:id|name)=\"" ++ frag ++ strB "\"[^>]*>"

/-- Anchor pattern builder for non-fragment hrefs (line 267). -/
def anchorPatFull (href : Bytes) : Bytes :=
  strB "(?i)<[^>]*(?:id|name)=\"[^\"]*" ++ href ++ strB "\"[^>]*>"

/-- `Item 9` heading end pattern (lines 276 and 569). -/
def pEndItem9H : Bytes := strB "(?i)<h[1-6][^>]*>\\s*Item\\s*9\\.?\\s*"

/-- `item 9 … changes` end pattern (lines 277 and 570). -/
def pEndItem9Changes : Bytes := strB "(?i)Item\\s*9[\\.\\s]*\\(?changes"

/-- `PART III` heading end pattern (lines 278, 423, 497, 571 and 626). -/
def pEndPartIIIH : Bytes := strB "(?i)<h[1-6][^>]*>\\s*PART\\s*III\\s*</h[1-6]>"

/-- End pattern list of `TocExtractionStrategy` and `PartIIExtractionStrategy`. -/
def tocEndPatterns : List Bytes := [pEndItem9H, pEndItem9Changes, pEndPartIIIH]

/-- `PART II` heading pattern (lines 314 and 532). -/
def pPart2 : Bytes := strB "(?i)<h[1-6][^>]*>\\s*PART\\s*II\\s*</h[1-6]>"

/-- Item 8 heading pattern 1 (lines 326 and 612). -/
def pItem8H : Bytes :=
  strB "(?i)<h[1-6][^>]*>\\s*Item\\s*8\\.?\\s*Financial\\s*Statements\\s*and\\s*Supplementary\\s*Data\\s*</h[1-6]>"

/-- Item 8 div pattern (line 327). -/
def pItem8Div : Bytes :=
  strB "(?i)<div[^>]*>\\s*(?:<strong>)?\\s*Item\\s*8\\.?\\s*Financial\\s*Statements\\s*and\\s*Supplementary\\s*Data\\s*(?:</strong>)?\\s*</div>"

/-- Item 8 p pattern (line 328). -/
def pItem8P : Bytes :=
  strB "(?i)<p[^>]*>\\s*(?:<strong>)?\\s*Item\\s*8\\.?\\s*Financial\\s*Statements\\s*and\\s*Supplementary\\s*Data\\s*(?:</strong>)?\\s*</p>"

/-- Item 8 span pattern (line 329). -/
def pItem8Span : Bytes :=
  strB "(?i)<span[^>]*>\\s*Item\\s*8\\.?\\s*Financial\\s*Statements\\s*and\\s*Supplementary\\s*Data\\s*</span>"

/-- Item 8 font pattern (line 330). -/
def pItem8Font : Bytes :=
  strB "(?i)<font[^>]*>\\s*Item\\s*8\\.?\\s*Financial\\s*Statements\\s*and\\s*Supplementary\\s*Data\\s*</font>"

/-- Item 8 punctuated text pattern (lines 331 and 615). -/
def pItem8Punct : Bytes :=
  strB "(?i)Item\\s*8[\\.\\s\\-–—:]+\\s*Financial\\s*Statements\\s*and\\s*Supplementary\\s*Data"

/-- The item 8 pattern list of `ActualItem8ExtractionStrategy`. -/
def item8Patterns : List Bytes :=
  [pItem8H, pItem8Div, pItem8P, pItem8Span, pItem8Font, pItem8Punct]

/-- Broad `item 8` pattern (lines 378, 617 and 624-adjacent start list). -/
def pItem8Bare : Bytes := strB "(?i)item\\s*8[\\.\\s]*"

/-- Broad section-title pattern (line 379). -/
def pFinSuppData : Bytes := strB "(?i)financial\\s+statements\\s+and\\s+supplementary\\s+data"

/-- The broader pattern list of `ActualItem8ExtractionStrategy`. -/
def broaderPatterns : List Bytes := [pItem8Bare, pFinSuppData]

/-- Actual-strategy end pattern 1 (line 422). -/
def pEndItem9ChangesH : Bytes := strB "(?i)<h[1-6][^>]*>\\s*Item\\s*9\\.?\\s*Changes\\b"

/-- Actual-strategy end pattern 3 (line 424). -/
def pEndItem10H : Bytes := strB "(?i)<h[1-6][^>]*>\\s*Item\\s*10\\.?\\s*Directors"

/-- Actual-strategy end pattern 4 (line 425). -/
def pEndPartIIIBare : Bytes := strB "(?i)PART\\s*III"

/-- End pattern list of `ActualItem8ExtractionStrategy`. -/
def actualEndPatterns : List Bytes :=
  [pEndItem9ChangesH, pEndPartIIIH, pEndItem10H, pEndPartIIIBare]

/-- Financial statement heading 1 (line 463). -/
def pFsConsFin : Bytes :=
  strB "(?i)<h[1-6][^>]*>\\s*consolidated\\s+financial\\s+statements\\s*</h[1-6]>"

/-- Financial statement heading 2 (line 464). -/
def pFsOps : Bytes :=
  strB "(?i)<h[1-6][^>]*>\\s*consolidated\\s+statements\\s+of\\s+operations\\s*</h[1-6]>"

/-- Financial statement heading 3 (line 465). -/
def pFsIncome : Bytes :=
  strB "(?i)<h[1-6][^>]*>\\s*consolidated\\s+statements\\s+of\\s+income\\s*</h[1-6]>"

/-- Financial statement heading 4 (line 466). -/
def pFsBalance : Bytes :=
  strB "(?i)<h[1-6][^>]*>\\s*consolidated\\s+balance\\s+sheets?\\s*</h[1-6]>"

/-- Financial statement heading 5 (line 467). -/
def pFsCash : Bytes :=
  strB "(?i)<h[1-6][^>]*>\\s*consolidated\\s+statements\\s+of\\s+cash\\s+flows?\\s*</h[1-6]>"

/-- Statement heading list of `FinancialStatementExtractionStrategy`. -/
def statementPatterns : List Bytes := [pFsConsFin, pFsOps, pFsIncome, pFsBalance, pFsCash]

/-- Financial-statement-strategy end pattern 2 (line 498). -/
def pEndItem9HBare : Bytes := strB "(?i)<h[1-6][^>]*>\\s*Item\\s*9[\\.\\s]*"

/-- End pattern list of `FinancialStatementExtractionStrategy`. -/
def finStmtEndPatterns : List Bytes := [pEndPartIIIH, pEndItem9HBare]

/-- `item 8` pattern of `PartIIExtractionStrategy` (line 537). -/
def pItem8Short : Bytes := strB "(?i)item\\s*8\\.?"

/-- Standard start pattern 2 (line 613). -/
def pItem8Text : Bytes :=
  strB "(?i)Item\\s*8\\.?\\s*Financial\\s*Statements\\s*and\\s*Supplementary\\s*Data"

/-- Standard start pattern 3 (line 614). -/
def pItem8Anchor : Bytes :=
  strB "(?i)<a[^>]*>\\s*Item\\s*8\\.\\s*</a>\\s*Financial\\s*Statements\\s*and\\s*Supplementary\\s*Data"

/-- Standard start pattern 5 (line 616). -/
def pItem8Paren : Bytes :=
  strB "(?i)item\\s*8[\\.\\s]*\\(?financial\\s+statements\\s+and\\s+supplementary\\s+data\\)?"

/-- Standard end pattern 1 (line 620). -/
def pItem9FullH : Bytes :=
  strB "(?i)<h[1-6][^>]*>\\s*Item\\s*9\\.?\\s*Changes\\s*in\\s*and\\s*Disagreements\\s*with\\s*Accountants\\s*</h[1-6]>"

/-- Standard end pattern 2 (line 621). -/
def pItem9FullText : Bytes :=
  strB "(?i)Item\\s*9\\.?\\s*Changes\\s*in\\s*and\\s*Disagreements\\s*with\\s*Accountants"

/-- Standard end pattern 3 (line 622). -/
def pItem9Anchor : Bytes :=
  strB "(?i)<a[^>]*>\\s*Item\\s*9\\.\\s*</a>\\s*Changes\\s*in\\s*and\\s*Disagreements\\s*with\\s*Accountants"

/-- Standard end pattern 4 (line 623). -/
def pItem9Punct : Bytes :=
  strB "(?i)Item\\s*9[\\.\\s\\-–—:]+\\s*Changes\\s*in\\s*and\\s*Disagreements\\s*with\\s*Accountants"

/-- Standard end pattern 5 (line 624). -/
def pItem9Bare : Bytes := strB "(?i)item\\s*9[\\.\\s]*"

/-- Standard end pattern 6 (line 625). -/
def pItem9BareChanges : Bytes := strB "(?i)item\\s*9[\\.\\s]*\\(?changes"

/-- Next-item heading pattern (line 222). -/
def pNextItem : Bytes := strB "(?i)<h[1-6][^>]*>\\s*Item\\s*[0-9]+\\.?"

/-! ### `is_in_table_of_contents` (section.rs lines 18–63) -/

/-- Inner loop over end-of-ToC markers (lines 44–54): a marker whose match
ends strictly before `position` proves we left the ToC. -/
def checkEndMarkers (env : RegexEnv) (startSearch position : Nat)
    (contentBefore : Bytes) : List Bytes → Bool
  | [] => true
  | p :: rest =>
    if env.newOk p then
      match env.find p contentBefore with
      | some m =>
        if startSearch + m.2 < position then false
        else checkEndMarkers env startSearch position contentBefore rest
      | none => checkEndMarkers env startSearch position contentBefore rest
    else checkEndMarkers env startSearch position contentBefore rest

/-- Outer loop over ToC indicators (lines 32–60). -/
def tocIndicatorLoop (env : RegexEnv) (startSearch position : Nat)
    (contentBefore : Bytes) : List Bytes → Bool
  | [] => false
  | p :: rest =>
    if env.newOk p ∧ (env.find p contentBefore).isSome then
      checkEndMarkers env startSearch position contentBefore endTocMarkers
    else tocIndicatorLoop env startSearch position contentBefore rest

/-- `is_in_table_of_contents(html_content, position)`: looks for a ToC
indicator in the 5000-byte window before `position` and, if one is found,
for an end-of-ToC marker after it.  The window slice
`&html_content[start_search..position]` can panic on a non-boundary index. -/
def isInToc (env : RegexEnv) (doc : Bytes) (position : Nat) : PRes Bool :=
  let startSearch := if position > 5000 then position - 5000 else 0
  match rSlice doc startSearch position with
  | .error e => .error e
  | .ok contentBefore =>
    .ok (tocIndicatorLoop env startSearch position contentBefore tocIndicators)

/-! ### Content checks -/

/-- Lowercased-contains check: `s.to_lowercase().contains(lit)`. -/
def containsLower (s : Bytes) (lit : String) : Bool :=
  isInfixB (strB lit) (asciiLower s)

/-- Financial-content lookahead of `PatternExtractionStrategy` (lines 178–185). -/
def patPreviewOk (following : Bytes) : Bool :=
  containsLower following "consolidated" ||
  containsLower following "balance sheet" ||
  containsLower following "income statement" ||
  containsLower following "cash flow" ||
  containsLower following "financial statement" ||
  containsLower following "audit" ||
  containsLower following "notes to"

/-- Financial-content lookahead of `ActualItem8ExtractionStrategy`, main loop
(lines 356–361). -/
def actualMainCheck (preview : Bytes) : Bool :=
  containsLower preview "consolidated" ||
  containsLower preview "balance sheet" ||
  containsLower preview "statement of" ||
  containsLower preview "cash flow" ||
  containsLower preview "report of independent" ||
  (containsLower preview "opinion" && containsLower preview "audit")

/-- Financial-content lookahead of `ActualItem8ExtractionStrategy`, broader
loop (lines 396–400); note the raw (case-sensitive) `<table` check. -/
def actualBroaderCheck (preview : Bytes) : Bool :=
  (containsLower preview "consolidated balance sheet" ||
   containsLower preview "statement of operations" ||
   containsLower preview "statement of income" ||
   containsLower preview "statement of cash flow") &&
  (isInfixB (strB "<table") preview || containsLower preview "notes to")

/-- Financial-content lookahead of `PartIIExtractionStrategy` (lines 560–565). -/
def partIICheck (preview : Bytes) : Bool :=
  containsLower preview "financial statements" ||
  containsLower preview "balance sheet" ||
  containsLower preview "statement of" ||
  containsLower preview "cash flow" ||
  containsLower preview "report of independent" ||
  (containsLower preview "opinion" && containsLower preview "audit")

/-- Full-span content validation of `extract_item_8` (lines 674–691):
canonical financial phrases, or a raw `<table` together with a
characteristic keyword. -/
def fullSpanValid (content : Bytes) : Bool :=
  let hasFinancialTerms :=
    containsLower content "consolidated balance sheet" ||
    containsLower content "statement of operations" ||
    containsLower content "statement of income" ||
    containsLower content "statement of cash flow" ||
    containsLower content "notes to consolidated" ||
    (containsLower content "report" && containsLower content "independent" &&
     containsLower content "audit")
  let hasFinancialTables :=
    isInfixB (strB "<table") content &&
    (containsLower content "assets" || containsLower content "liabilities" ||
     containsLower content "equity" || containsLower content "revenue" ||
     containsLower content "expense")
  hasFinancialTerms || hasFinancialTables

/-! ### `PatternExtractionStrategy` (lines 147–241) -/

/-- The `PatternExtractionStrategy` struct (lines 147–151). -/
structure PatternExtractionStrategy where
  name : String
  startPatterns : List Bytes
  endPatterns : List Bytes
deriving DecidableEq

/-- Inner loop of the start scan (lines 164–196): for each match, skip it if
it lies in a table of contents, then demand financial terms in the 2000-byte
lookahead window; the first surviving match's start position wins. -/
def patFindStartMatches (env : RegexEnv) (doc : Bytes) :
    List (Nat × Nat) → PRes (Option Nat)
  | [] => .ok none
  | m :: rest =>
    match isInToc env doc m.1 with
    | .error e => .error e
    | .ok true => patFindStartMatches env doc rest
    | .ok false =>
      let contentCheckEnd := min (m.2 + 2000) doc.length
      match rSlice doc m.2 contentCheckEnd with
      | .error e => .error e
      | .ok following =>
        if patPreviewOk following then .ok (some m.1)
        else patFindStartMatches env doc rest

/-- Outer loop of the start scan (lines 160–202): first pattern, in rank
order, that yields a surviving match. -/
def patFindStart (env : RegexEnv) (doc : Bytes) : List Bytes → PRes (Option Nat)
  | [] => .ok none
  | p :: rest =>
    if env.newOk p then
      match patFindStartMatches env doc (env.findIter p doc) with
      | .error e => .error e
      | .ok (some s) => .ok (some s)
      | .ok none => patFindStart env doc rest
    else patFindStart env doc rest

/-- End scan of `PatternExtractionStrategy` (lines 207–217): end rules are
tried in rank order over `&html_content[start_pos + 100..]`, and the first
rule that matches determines the end position. -/
def patFindEnd (env : RegexEnv) (doc : Bytes) (startPos : Nat) :
    List Bytes → PRes (Option Nat)
  | [] => .ok none
  | p :: rest =>
    if env.newOk p then
      match rSlice doc (startPos + 100) doc.length with
      | .error e => .error e
      | .ok tail =>
        match env.find p tail with
        | some m => .ok (some (startPos + 100 + m.1))
        | none => patFindEnd env doc startPos rest
    else patFindEnd env doc startPos rest

/-- `PatternExtractionStrategy::extract` (lines 158–240): find a start, find
an end (end rules, then the next-item heading after `start_pos + 1000`, then
the `start_pos + 300000` fallback), and demand `end > start` and a span
strictly larger than the configured minimum. -/
def patternExtract (env : RegexEnv) (st : PatternExtractionStrategy)
    (minSize : Nat) (doc : Bytes) : PRes (Option (Nat × Nat)) :=
  match patFindStart env doc st.startPatterns with
  | .error e => .error e
  | .ok none => .ok none
  | .ok (some s) =>
    match patFindEnd env doc s st.endPatterns with
    | .error e => .error e
    | .ok endRes =>
      let next : PRes (Option Nat) :=
        match endRes with
        | some e0 => .ok (some e0)
        | none =>
          if env.newOk pNextItem then
            match rSlice doc (s + 1000) doc.length with
            | .error e => .error e
            | .ok tail =>
              match env.find pNextItem tail with
              | some m => .ok (some (s + 1000 + m.1))
              | none => .ok none
          else .ok none
      match next with
      | .error e => .error e
      | .ok e? =>
        let e0 := e?.getD (min (s + 300000) doc.length)
        if s < e0 ∧ minSize < e0 - s then .ok (some (s, e0)) else .ok none

/-! ### Shared end-marker search -/

/-- The "first end rule that matches after `off` wins" loop, shared verbatim
by `TocExtractionStrategy` (lines 281–289), `ActualItem8ExtractionStrategy`
(lines 428–437) and `PartIIExtractionStrategy` (lines 574–583): each pattern
searches `&html_content[off..]` and the first match fixes the end position. -/
def findFirstEndFrom (env : RegexEnv) (doc : Bytes) (off : Nat) :
    List Bytes → PRes (Option Nat)
  | [] => .ok none
  | p :: rest =>
    if env.newOk p then
      match rSlice doc off doc.length with
      | .error e => .error e
      | .ok tail =>
        match env.find p tail with
        | some m => .ok (some (off + m.1))
        | none => findFirstEndFrom env doc off rest
    else findFirstEndFrom env doc off rest

/-! ### `TocExtractionStrategy` (lines 244–302) -/

/-- `TocExtractionStrategy::extract` (lines 251–301): find a ToC link to
Item 8, capture its `href`, build an anchor pattern for the link target,
and return the span from the first anchor occurrence to the first end
marker (or the `start_pos + 200000` fallback).  No ToC check, size check or
content check is performed here. -/
def tocExtract (env : RegexEnv) (doc : Bytes) : PRes (Option (Nat × Nat)) :=
  if env.newOk pTocLink then
    match env.find pTocLink doc with
    | none => .ok none
    | some mat =>
      if env.newOk pHref then
        match rSlice doc mat.1 mat.2 with
        | .error e => .error e
        | .ok frag =>
          match env.capt1 pHref frag with
          | none => .ok none
          | some g =>
            match rSlice frag g.1 g.2 with
            | .error e => .error e
            | .ok hrefVal =>
              let anchorPatRes : PRes Bytes :=
                if hrefVal.take 1 = [35] then
                  match rSlice hrefVal 1 hrefVal.length with
                  | .error e => .error e
                  | .ok frag2 => .ok (anchorPatHash frag2)
                else .ok (anchorPatFull hrefVal)
              match anchorPatRes with
              | .error e => .error e
              | .ok anchorPat =>
                if env.newOk anchorPat then
                  match env.find anchorPat doc with
                  | none => .ok none
                  | some anchorMat =>
                    let startPos := anchorMat.1
                    match findFirstEndFrom env doc startPos tocEndPatterns with
                    | .error e => .error e
                    | .ok e? =>
                      .ok (some (startPos, e?.getD (min (startPos + 200000) doc.length)))
                else .ok none
      else .ok none
  else .ok none

/-! ### `ActualItem8ExtractionStrategy` (lines 305–449) -/

/-- Match loop shared by the two scans of `ActualItem8ExtractionStrategy`
(lines 340–368 and 384–407): skip ToC matches, then check the lookahead
window after the matched header with the loop's financial-content check;
a surviving match returns `(actual_pos, candidate_header_end)`. -/
def actualScanMatches (env : RegexEnv) (doc : Bytes) (searchFrom lookAhead : Nat)
    (check : Bytes → Bool) : List (Nat × Nat) → PRes (Option (Nat × Nat))
  | [] => .ok none
  | m :: rest =>
    let actualPos := searchFrom + m.1
    match isInToc env doc actualPos with
    | .error e => .error e
    | .ok true => actualScanMatches env doc searchFrom lookAhead check rest
    | .ok false =>
      let headerEnd := searchFrom + m.2
      let endPreview := min (headerEnd + lookAhead) doc.length
      match rSlice doc headerEnd endPreview with
      | .error e => .error e
      | .ok preview =>
        if check preview then .ok (some (actualPos, headerEnd))
        else actualScanMatches env doc searchFrom lookAhead check rest

/-- Pattern loop shared by the two scans of `ActualItem8ExtractionStrategy`
(lines 337–373 and 382–412): each pattern's matches are enumerated over
`&html_content[search_from..]`. -/
def actualScanPatterns (env : RegexEnv) (doc : Bytes) (searchFrom lookAhead : Nat)
    (check : Bytes → Bool) : List Bytes → PRes (Option (Nat × Nat))
  | [] => .ok none
  | p :: rest =>
    if env.newOk p then
      match rSlice doc searchFrom doc.length with
      | .error e => .error e
      | .ok tail =>
        match actualScanMatches env doc searchFrom lookAhead check (env.findIter p tail) with
        | .error e => .error e
        | .ok (some r) => .ok (some r)
        | .ok none => actualScanPatterns env doc searchFrom lookAhead check rest
    else actualScanPatterns env doc searchFrom lookAhead check rest

/-- `ActualItem8ExtractionStrategy::extract` (lines 312–448): scope the scan
to the first `PART II` heading when present, scan the specific Item 8
patterns with a 5000-byte lookahead, then the broader patterns with a
10000-byte lookahead; from the header end search the end patterns, fall back
to `start + 300000`, and demand a span strictly larger than the minimum.
In the source `header_end` is always set together with `start_pos`, so the
`unwrap_or` on line 418 always takes the `Some` branch carried here. -/
def actualItem8Extract (env : RegexEnv) (minSize : Nat) (doc : Bytes) :
    PRes (Option (Nat × Nat)) :=
  if env.newOk pPart2 then
    let part2s := env.findIter pPart2 doc
    let searchFrom := match part2s with
      | [] => 0
      | x :: _ => x.1
    match actualScanPatterns env doc searchFrom 5000 actualMainCheck item8Patterns with
    | .error e => .error e
    | .ok r0 =>
      let scanned : PRes (Option (Nat × Nat)) :=
        match r0 with
        | some r => .ok (some r)
        | none =>
          actualScanPatterns env doc searchFrom 10000 actualBroaderCheck broaderPatterns
      match scanned with
      | .error e => .error e
      | .ok none => .ok none
      | .ok (some (start, headerEnd)) =>
        match findFirstEndFrom env doc headerEnd actualEndPatterns with
        | .error e => .error e
        | .ok e? =>
          let e0 := e?.getD (min (start + 300000) doc.length)
          if start < e0 ∧ minSize < e0 - start then .ok (some (start, e0))
          else .ok none
  else .ok none

/-! ### `FinancialStatementExtractionStrategy` (lines 453–519) -/

/-- Best-match fold (lines 470–491): for each statement heading pattern take
its leftmost match, discard it when it lies in a table of contents, and keep
the candidate with the smallest start position. -/
def finStmtBest (env : RegexEnv) (doc : Bytes) :
    List Bytes → Option (Nat × Nat) → PRes (Option (Nat × Nat))
  | [], best => .ok best
  | p :: rest, best =>
    if env.newOk p then
      match env.find p doc with
      | some m =>
        match isInToc env doc m.1 with
        | .error e => .error e
        | .ok true => finStmtBest env doc rest best
        | .ok false =>
          let best2 := match best with
            | some cur => if m.1 < cur.1 then some m else some cur
            | none => some m
          finStmtBest env doc rest best2
      | none => finStmtBest env doc rest best
    else finStmtBest env doc rest best

/-- End loop of `FinancialStatementExtractionStrategy` (lines 501–513): an
end match only counts when it lies more than the minimum size after the
start; otherwise the next pattern is tried. -/
def finStmtEnd (env : RegexEnv) (minSize : Nat) (doc : Bytes) (startPos : Nat) :
    List Bytes → PRes (Option Nat)
  | [] => .ok none
  | p :: rest =>
    if env.newOk p then
      match rSlice doc startPos doc.length with
      | .error e => .error e
      | .ok tail =>
        match env.find p tail with
        | some m =>
          let pos := startPos + m.1
          if startPos + minSize < pos then .ok (some pos)
          else finStmtEnd env minSize doc startPos rest
        | none => finStmtEnd env minSize doc startPos rest
    else finStmtEnd env minSize doc startPos rest

/-- `FinancialStatementExtractionStrategy::extract` (lines 460–518): earliest
non-ToC statement heading, end marker or `start + 200000` fallback; the
resolved span is returned without any size or content gate of its own. -/
def finStmtExtract (env : RegexEnv) (minSize : Nat) (doc : Bytes) :
    PRes (Option (Nat × Nat)) :=
  match finStmtBest env doc statementPatterns none with
  | .error e => .error e
  | .ok none => .ok none
  | .ok (some best) =>
    let startPos := best.1
    match finStmtEnd env minSize doc startPos finStmtEndPatterns with
    | .error e => .error e
    | .ok e? => .ok (some (startPos, e?.getD (min (startPos + 200000) doc.length)))

/-! ### `PartIIExtractionStrategy` (lines 523–598) -/

/-- Candidate loop of `PartIIExtractionStrategy` (lines 546–594): skip ToC
matches, check the 5000-byte lookahead after the matched text, resolve an end
from `min(start + 1000, len)` and only return a span strictly larger than
the minimum; otherwise keep scanning. -/
def partIIScan (env : RegexEnv) (minSize : Nat) (doc : Bytes) (searchFrom : Nat) :
    List (Nat × Nat) → PRes (Option (Nat × Nat))
  | [] => .ok none
  | m :: rest =>
    let startPos := searchFrom + m.1
    match isInToc env doc startPos with
    | .error e => .error e
    | .ok true => partIIScan env minSize doc searchFrom rest
    | .ok false =>
      let matLen := m.2 - m.1
      let endPreview := min (startPos + matLen + 5000) doc.length
      match rSlice doc (startPos + matLen) endPreview with
      | .error e => .error e
      | .ok preview =>
        if partIICheck preview then
          let searchFromEnd := min (startPos + 1000) doc.length
          match findFirstEndFrom env doc searchFromEnd tocEndPatterns with
          | .error e => .error e
          | .ok e? =>
            let e0 := e?.getD (min (startPos + 300000) doc.length)
            if startPos < e0 ∧ minSize < e0 - startPos then .ok (some (startPos, e0))
            else partIIScan env minSize doc searchFrom rest
        else partIIScan env minSize doc searchFrom rest

/-- `PartIIExtractionStrategy::extract` (lines 530–597): all `item 8`
matches after the first `PART II` heading are scanned in order. -/
def partIIExtract (env : RegexEnv) (minSize : Nat) (doc : Bytes) :
    PRes (Option (Nat × Nat)) :=
  if env.newOk pPart2 then
    match env.find pPart2 doc with
    | none => .ok none
    | some p2 =>
      if env.newOk pItem8Short then
        match rSlice doc p2.1 doc.length with
        | .error e => .error e
        | .ok tail => partIIScan env minSize doc p2.1 (env.findIter pItem8Short tail)
      else .ok none
  else .ok none

/-! ### Result types (`section.rs` lines 129–138, `error.rs` lines 27–37) -/

/-- `ExtractedSection` (section.rs lines 130–138). -/
structure ExtractedSection where
  sectionName : String
  sectionTitle : String
  content : Bytes
  filingYear : Nat
  companyName : Bytes
  ticker : Bytes
deriving DecidableEq

/-- `ExtractError` (error.rs lines 27–37): the extraction error type has
exactly these three variants. -/
inductive ExtractError where
  | RegexError (msg : String)
  | SectionNotFound (name : String)
  | HtmlParseError (msg : String)
deriving DecidableEq

/-- `Result<ExtractedSection, ExtractError>`. -/
inductive RResult where
  | ok (sec : ExtractedSection)
  | err (e : ExtractError)
deriving DecidableEq

/-! ### `SectionExtractor` (lines 601–732) -/

/-- The strategy objects of `SectionExtractor::new` (the trait objects are a
closed set in this repository, so dynamic dispatch becomes a sum type). -/
inductive ExtractionStrategy where
  | toc
  | actualItem8
  | pattern (st : PatternExtractionStrategy)
  | partII
  | financialStatement
deriving DecidableEq

/-- `ExtractionStrategy::name` of each implementation. -/
def ExtractionStrategy.name : ExtractionStrategy → String
  | .toc => "ToC Strategy"
  | .actualItem8 => "Actual Item 8 Content Strategy"
  | .pattern st => st.name
  | .partII => "Part II Strategy"
  | .financialStatement => "Financial Statement Strategy"

/-- `ExtractionStrategy::extract` dispatch. -/
def ExtractionStrategy.extract (env : RegexEnv) (minSize : Nat) (doc : Bytes) :
    ExtractionStrategy → PRes (Option (Nat × Nat))
  | .toc => tocExtract env doc
  | .actualItem8 => actualItem8Extract env minSize doc
  | .pattern st => patternExtract env st minSize doc
  | .partII => partIIExtract env minSize doc
  | .financialStatement => finStmtExtract env minSize doc

/-- The standard pattern strategy of `SectionExtractor::new` (lines 609–628). -/
def standardStrategy : PatternExtractionStrategy where
  name := "Standard Item 8 Strategy"
  startPatterns :=
    [pItem8H, pItem8Text, pItem8Anchor, pItem8Punct, pItem8Paren, pItem8Bare]
  endPatterns :=
    [pItem9FullH, pItem9FullText, pItem9Anchor, pItem9Punct, pItem9Bare,
     pItem9BareChanges, pEndPartIIIH]

/-- The fixed strategy order of `SectionExtractor::new` (lines 631–638). -/
def defaultStrategies : List ExtractionStrategy :=
  [.toc, .actualItem8, .pattern standardStrategy, .toc, .partII,
   .financialStatement]

/-- `HashMap::insert` on the debug map: replace the value of an existing key,
otherwise add the entry. -/
def insertDbg : List (String × String) → String → String → List (String × String)
  | [], k, v => [(k, v)]
  | (k0, v0) :: rest, k, v =>
    if k0 = k then (k0, v) :: rest else (k0, v0) :: insertDbg rest k v

/-- The `ExtractedSection` built on success (lines 710–717). -/
def mkSection (content : Bytes) (filingYear : Nat) (companyName ticker : Bytes) :
    ExtractedSection where
  sectionName := "Item 8"
  sectionTitle := "Financial Statements and Supplementary Data"
  content := content
  filingYear := filingYear
  companyName := companyName
  ticker := ticker

/-- The strategy loop of `extract_item_8` (lines 656–730): each strategy's
span is vetted by the size gate (`end > start` and `end - start ≥ minimum`)
and by `fullSpanValid` on the extracted content; a failure records a reason
in the debug map and moves on, and exhaustion returns
`SectionNotFound("Item 8")` with the accumulated map. -/
def tryStrategies (env : RegexEnv) (minSize : Nat) (doc : Bytes)
    (filingYear : Nat) (companyName ticker : Bytes) :
    List ExtractionStrategy → List (String × String) →
    PRes (RResult × List (String × String))
  | [], dbg => .ok (.err (.SectionNotFound "Item 8"), dbg)
  | s :: rest, dbg =>
    match s.extract env minSize doc with
    | .error e => .error e
    | .ok none =>
      tryStrategies env minSize doc filingYear companyName ticker rest
        (insertDbg dbg s.name "No match found")
    | .ok (some (a, b)) =>
      if b ≤ a ∨ b - a < minSize then
        tryStrategies env minSize doc filingYear companyName ticker rest
          (insertDbg dbg s.name
            ("Section too small: " ++ toString (b - a) ++ " bytes"))
      else
        match rSlice doc a b with
        | .error e => .error e
        | .ok content =>
          if fullSpanValid content then
            .ok (.ok (mkSection content filingYear companyName ticker), dbg)
          else
            tryStrategies env minSize doc filingYear companyName ticker rest
              (insertDbg dbg s.name "Found section lacks financial content indicators")

/-- `SectionExtractor::extract_item_8` together with the `debug_info` map it
accumulates (the map itself is only logged by the source, never returned). -/
def extractItem8Debug (env : RegexEnv) (envVar : Option Bytes) (doc : Bytes)
    (filingYear : Nat) (companyName ticker : Bytes) :
    PRes (RResult × List (String × String)) :=
  tryStrategies env (getMinSectionSize envVar) doc filingYear companyName ticker
    defaultStrategies []

/-- `SectionExtractor::extract_item_8` (lines 644–731): the value returned to
the caller.  `envVar` is the ambient `MIN_SECTION_SIZE` variable read through
`get_min_section_size`. -/
def extractItem8 (env : RegexEnv) (envVar : Option Bytes) (doc : Bytes)
    (filingYear : Nat) (companyName ticker : Bytes) : PRes RResult :=
  Except.map Prod.fst (extractItem8Debug env envVar doc filingYear companyName ticker)

/-- One orchestrator step, as a specification value: `none` when the strategy
produces no span or its span fails the size or content gate, `some content`
when the strategy's span passes both gates. -/
def strategyStep (env : RegexEnv) (minSize : Nat) (doc : Bytes)
    (s : ExtractionStrategy) : PRes (Option Bytes) :=
  match s.extract env minSize doc with
  | .error e => .error e
  | .ok none => .ok none
  | .ok (some (a, b)) =>
    if b ≤ a ∨ b - a < minSize then .ok none
    else
      match rSlice doc a b with
      | .error e => .error e
      | .ok content => if fullSpanValid content then .ok (some content) else .ok none

/-- Overwrite the stamped metadata of a result value, leaving section name,
title and content untouched. -/
def restampR (filingYear : Nat) (companyName ticker : Bytes) : RResult → RResult
  | .ok sec =>
    .ok { sec with filingYear := filingYear, companyName := companyName,
                   ticker := ticker }
  | .err e => .err e

/-- Overwrite the stamped metadata of a returned result. -/
def restamp (filingYear : Nat) (companyName ticker : Bytes) :
    PRes RResult → PRes RResult :=
  Except.map (restampR filingYear companyName ticker)

/-! ### Concrete inputs

Each concrete document comes with an oracle whose table lists, for every
pattern the run (or the accompanying statement) consults, the literal whose
occurrences in the consulted haystacks coincide with the pattern's regex
matches there; patterns without a table entry have no match in the
consulted haystacks. -/

/-- The exact Item 8 header text, matched by the punctuated and text header
patterns. -/
def item8Header : Bytes := strB "Item 8. Financial Statements and Supplementary Data"

/-- Document for C1: a plain-text Item 8 header followed by financial
content and a bare `PART III` end marker. -/
def docC1 : Bytes :=
  item8Header ++ strB " consolidated balance sheet notes " ++
  List.replicate 22 113 ++ strB " PART III tail"

/-- Oracle for `docC1`. -/
def envC1 : RegexEnv :=
  mkEnv [(pItem8Punct, item8Header), (pItem8Text, item8Header),
         (pItem8Paren, item8Header), (pItem8Bare, strB "Item 8. "),
         (pFinSuppData, strB "Financial Statements and Supplementary Data"),
         (pItem8Short, strB "Item 8."), (pEndPartIIIBare, strB "PART III")]

/-- Document for C2: a table-of-contents region whose Item 8 link target sits
immediately after the list, with no end-of-ToC marker in between. -/
def docC2 : Bytes :=
  strB "<p>Table of Contents</p><a href=\"#item8\">Item 8</a><div id=\"item8\">notes to consolidated " ++
  List.replicate 30 113 ++ strB "</div>"

/-- Oracle for `docC2`; capture group 1 of the `href` pattern on the matched
link text is the span of `#item8`. -/
def envC2 : RegexEnv :=
  { mkEnv [(pTocLink, strB "<a href=\"#item8\">Item 8</a>"),
           (anchorPatHash (strB "item8"), strB "<div id=\"item8\">"),
           (pTocPlain, strB "Table of Contents")] with
    capt1 := fun p t =>
      if p = pHref ∧ t = strB "<a href=\"#item8\">Item 8</a>" then some (9, 15)
      else none }

/-- Document for C3: a lone balance-sheet heading, 38 bytes in total. -/
def docC3 : Bytes := strB "<h2>Consolidated Balance Sheets</h2>xx"

/-- Oracle for `docC3`. -/
def envC3 : RegexEnv :=
  mkEnv [(pFsBalance, strB "<h2>Consolidated Balance Sheets</h2>")]

/-- Document for C4: an Item 8 header, a bare lowercase `item 9` mention at
byte 105, and a full Item 9 heading at byte 120. -/
def docC4 : Bytes :=
  item8Header ++ strB " consolidated " ++ List.replicate 40 113 ++
  strB "item 9 " ++ List.replicate 8 113 ++
  strB "<h2>Item 9. Changes in and Disagreements with Accountants</h2>"

/-- Oracle for `docC4`. -/
def envC4 : RegexEnv :=
  mkEnv [(pItem8Text, item8Header), (pItem8Punct, item8Header),
         (pItem8Paren, item8Header), (pItem8Bare, strB "Item 8. "),
         (pItem8Short, strB "Item 8."),
         (pItem9FullH,
          strB "<h2>Item 9. Changes in and Disagreements with Accountants</h2>"),
         (pItem9FullText,
          strB "Item 9. Changes in and Disagreements with Accountants"),
         (pItem9Bare, strB "item 9 ")]

/-- Document for C5: a balance-sheet heading with a keyword-bearing table,
66 bytes. -/
def docC5 : Bytes :=
  strB "<h2>Consolidated Balance Sheets</h2> assets <table> expense qqqqqq"

/-- Oracle for `docC5`. -/
def envC5 : RegexEnv :=
  mkEnv [(pFsBalance, strB "<h2>Consolidated Balance Sheets</h2>")]

/-- Document for C6: same shape as `docC5`; 66 bytes, so it passes a
50-byte minimum and fails a 200-byte minimum. -/
def docC6 : Bytes :=
  strB "<h2>Consolidated Balance Sheets</h2> assets <table> expense qqqqqq"

/-- Oracle for `docC6`. -/
def envC6 : RegexEnv :=
  mkEnv [(pFsBalance, strB "<h2>Consolidated Balance Sheets</h2>")]

/-- Document for C7: only the last strategy in the chain can extract it. -/
def docC7 : Bytes :=
  strB "<h2>Consolidated Balance Sheets</h2> assets <table> expense qqqqqq"

/-- Oracle for `docC7`. -/
def envC7 : RegexEnv :=
  mkEnv [(pFsBalance, strB "<h2>Consolidated Balance Sheets</h2>")]

/-- Document for C8: all six strategy attempts fail (five distinct names). -/
def docC8 : Bytes := strB "<h2>Consolidated Balance Sheets</h2>xx"

/-- Oracle for `docC8`. -/
def envC8 : RegexEnv :=
  mkEnv [(pFsBalance, strB "<h2>Consolidated Balance Sheets</h2>")]

/-- Document for C10: a bare `Item 8` mention at byte 3 followed by `audit`,
16 bytes in total, so the validated start is 3 and the end scan slices
`&html_content[3 + 100..]` past the end of the string. -/
def docC10 : Bytes := strB "qq Item 8. audit"

/-- Oracle for `docC10`. -/
def envC10 : RegexEnv := mkEnv [(pItem8Bare, strB "Item 8. ")]

/-- Custom witness strategy, built like the custom instances in the
repository's own tests. -/
def stC1w : PatternExtractionStrategy where
  name := "Witness Strategy"
  startPatterns := [strB "(?i)item\\s*8"]
  endPatterns := [strB "(?i)item\\s*9"]

/-- Witness document for the amended C1: start match at 0, end match at 120. -/
def docC1w : Bytes :=
  strB "Item 8 consolidated " ++ List.replicate 100 113 ++ strB "Item 9 end"

/-- Oracle for `docC1w`. -/
def envC1w : RegexEnv :=
  mkEnv [(strB "(?i)item\\s*8", strB "Item 8"), (strB "(?i)item\\s*9", strB "Item 9")]

/-- Custom witness strategy for the amended C2. -/
def stC2w : PatternExtractionStrategy where
  name := "Witness Strategy 2"
  startPatterns := [strB "(?i)item\\s*8"]
  endPatterns := [strB "(?i)item\\s*9"]

/-- Witness document for the amended C2. -/
def docC2w : Bytes :=
  strB "Item 8 consolidated " ++ List.replicate 100 113 ++ strB "Item 9 x"

/-- Oracle for `docC2w`. -/
def envC2w : RegexEnv :=
  mkEnv [(strB "(?i)item\\s*8", strB "Item 8"), (strB "(?i)item\\s*9", strB "Item 9")]

/-- View of `Except` as a sum, for deciding equalities of run results. -/
def exceptToSum {ε α : Type} : Except ε α → ε ⊕ α
  | .error e => .inl e
  | .ok a => .inr a

instance {ε α : Type} [DecidableEq ε] [DecidableEq α] : DecidableEq (Except ε α) :=
  fun a b =>
    decidable_of_iff (exceptToSum a = exceptToSum b)
      (by cases a <;> cases b <;> simp [exceptToSum])

/-! ### Structural lemmas about the embedded engine -/

theorem rSlice_ok_eq {s : Bytes} {a b : Nat} {c : Bytes}
    (h : rSlice s a b = .ok c) : c = (s.drop a).take (b - a) := by
  unfold rSlice at h
  split at h
  · injection h with h
    exact h.symm
  · simp at h

theorem patFindStartMatches_notToC (env : RegexEnv) (doc : Bytes)
    (ms : List (Nat × Nat)) (s : Nat)
    (h : patFindStartMatches env doc ms = .ok (some s)) :
    isInToc env doc s = .ok false := by
  induction ms with
  | nil => simp [patFindStartMatches] at h
  | cons m rest ih =>
    unfold patFindStartMatches at h
    cases htoc : isInToc env doc m.1 with
    | error e => rw [htoc] at h; simp at h
    | ok b =>
      rw [htoc] at h
      cases b with
      | true => exact ih h
      | false =>
        dsimp only at h
        cases hsl : rSlice doc m.2 (min (m.2 + 2000) doc.length) with
        | error e => rw [hsl] at h; simp at h
        | ok following =>
          rw [hsl] at h
          dsimp only at h
          by_cases hp : patPreviewOk following
          · rw [if_pos hp] at h
            simp only [Except.ok.injEq, Option.some.injEq] at h
            rw [← h]
            exact htoc
          · rw [if_neg hp] at h
            exact ih h

theorem patFindStartMatches_mem (env : RegexEnv) (doc : Bytes)
    (ms : List (Nat × Nat)) (s : Nat)
    (h : patFindStartMatches env doc ms = .ok (some s)) :
    ∃ m ∈ ms, m.1 = s := by
  induction ms with
  | nil => simp [patFindStartMatches] at h
  | cons m rest ih =>
    unfold patFindStartMatches at h
    cases htoc : isInToc env doc m.1 with
    | error e => rw [htoc] at h; simp at h
    | ok b =>
      rw [htoc] at h
      cases b with
      | true =>
        obtain ⟨m0, hm0, he⟩ := ih h
        exact ⟨m0, List.mem_cons_of_mem _ hm0, he⟩
      | false =>
        dsimp only at h
        cases hsl : rSlice doc m.2 (min (m.2 + 2000) doc.length) with
        | error e => rw [hsl] at h; simp at h
        | ok following =>
          rw [hsl] at h
          dsimp only at h
          by_cases hp : patPreviewOk following
          · rw [if_pos hp] at h
            simp only [Except.ok.injEq, Option.some.injEq] at h
            exact ⟨m, List.mem_cons_self _ _, h⟩
          · rw [if_neg hp] at h
            obtain ⟨m0, hm0, he⟩ := ih h
            exact ⟨m0, List.mem_cons_of_mem _ hm0, he⟩

theorem patFindStart_notToC (env : RegexEnv) (doc : Bytes)
    (ps : List Bytes) (s : Nat)
    (h : patFindStart env doc ps = .ok (some s)) :
    isInToc env doc s = .ok false := by
  induction ps with
  | nil => simp [patFindStart] at h
  | cons p rest ih =>
    unfold patFindStart at h
    by_cases hok : env.newOk p
    · rw [if_pos hok] at h
      cases hm : patFindStartMatches env doc (env.findIter p doc) with
      | error e => rw [hm] at h; simp at h
      | ok r =>
        rw [hm] at h
        cases r with
        | some s0 =>
          simp only [Except.ok.injEq, Option.some.injEq] at h
          rw [← h]
          exact patFindStartMatches_notToC env doc _ s0 hm
        | none => exact ih h
    · rw [if_neg hok] at h
      exact ih h

theorem patFindStart_mem (env : RegexEnv) (doc : Bytes)
    (ps : List Bytes) (s : Nat)
    (h : patFindStart env doc ps = .ok (some s)) :
    ∃ p ∈ ps, ∃ m ∈ env.findIter p doc, m.1 = s := by
  induction ps with
  | nil => simp [patFindStart] at h
  | cons p rest ih =>
    unfold patFindStart at h
    by_cases hok : env.newOk p
    · rw [if_pos hok] at h
      cases hm : patFindStartMatches env doc (env.findIter p doc) with
      | error e => rw [hm] at h; simp at h
      | ok r =>
        rw [hm] at h
        cases r with
        | some s0 =>
          simp only [Except.ok.injEq, Option.some.injEq] at h
          obtain ⟨m0, hm0, he⟩ := patFindStartMatches_mem env doc _ s0 hm
          exact ⟨p, List.mem_cons_self _ _, m0, hm0, h ▸ he⟩
        | none =>
          obtain ⟨p0, hp0, r0⟩ := ih h
          exact ⟨p0, List.mem_cons_of_mem _ hp0, r0⟩
    · rw [if_neg hok] at h
      obtain ⟨p0, hp0, r0⟩ := ih h
      exact ⟨p0, List.mem_cons_of_mem _ hp0, r0⟩

theorem patFindEnd_spec (env : RegexEnv) (doc : Bytes) (s : Nat)
    (ps : List Bytes) (e : Nat)
    (h : patFindEnd env doc s ps = .ok (some e)) :
    ∃ p ∈ ps, ∃ tail mt, rSlice doc (s + 100) doc.length = .ok tail ∧
      env.find p tail = some mt ∧ e = s + 100 + mt.1 := by
  induction ps with
  | nil => simp [patFindEnd] at h
  | cons p rest ih =>
    unfold patFindEnd at h
    by_cases hok : env.newOk p
    · rw [if_pos hok] at h
      cases hsl : rSlice doc (s + 100) doc.length with
      | error e0 => rw [hsl] at h; simp at h
      | ok tail =>
        rw [hsl] at h
        dsimp only at h
        cases hf : env.find p tail with
        | some mt =>
          rw [hf] at h
          simp only [Except.ok.injEq, Option.some.injEq] at h
          exact ⟨p, List.mem_cons_self _ _, tail, mt, rfl, hf, h.symm⟩
        | none =>
          rw [hf] at h
          obtain ⟨p0, hp0, tail0, mt0, hsl0, hf0, he0⟩ := ih h
          rw [hsl] at hsl0
          exact ⟨p0, List.mem_cons_of_mem _ hp0, tail0, mt0, hsl0, hf0, he0⟩
    · rw [if_neg hok] at h
      obtain ⟨p0, hp0, r0⟩ := ih h
      exact ⟨p0, List.mem_cons_of_mem _ hp0, r0⟩

theorem patternExtract_spec (env : RegexEnv) (st : PatternExtractionStrategy)
    (minSize : Nat) (doc : Bytes) (a b : Nat)
    (h : patternExtract env st minSize doc = .ok (some (a, b))) :
    patFindStart env doc st.startPatterns = .ok (some a) ∧ a < b ∧
      minSize < b - a ∧
      ((∃ p ∈ st.endPatterns, ∃ tail mt,
          rSlice doc (a + 100) doc.length = .ok tail ∧
          env.find p tail = some mt ∧ b = a + 100 + mt.1) ∨
       (∃ tail mt, env.newOk pNextItem = true ∧
          rSlice doc (a + 1000) doc.length = .ok tail ∧
          env.find pNextItem tail = some mt ∧ b = a + 1000 + mt.1) ∨
       b = min (a + 300000) doc.length) := by
  unfold patternExtract at h
  cases hs : patFindStart env doc st.startPatterns with
  | error e => rw [hs] at h; simp at h
  | ok r =>
    rw [hs] at h
    cases r with
    | none => simp at h
    | some s =>
      dsimp only at h
      cases hpe : patFindEnd env doc s st.endPatterns with
      | error e => rw [hpe] at h; simp at h
      | ok endRes =>
        rw [hpe] at h
        dsimp only at h
        cases endRes with
        | some e0 =>
          dsimp only [Option.getD] at h
          split at h
          · rename_i hguard
            simp only [Except.ok.injEq, Option.some.injEq, Prod.mk.injEq] at h
            obtain ⟨ha, hb⟩ := h
            subst ha; subst hb
            refine ⟨rfl, hguard.1, hguard.2, .inl ?_⟩
            exact patFindEnd_spec env doc s st.endPatterns e0 hpe
          · simp at h
        | none =>
          by_cases hni : env.newOk pNextItem
          · rw [if_pos hni] at h
            cases hsl : rSlice doc (s + 1000) doc.length with
            | error e => rw [hsl] at h; simp at h
            | ok tail =>
              rw [hsl] at h
              dsimp only at h
              cases hf : env.find pNextItem tail with
              | some mt =>
                rw [hf] at h
                dsimp only [Option.getD] at h
                split at h
                · rename_i hguard
                  simp only [Except.ok.injEq, Option.some.injEq, Prod.mk.injEq] at h
                  obtain ⟨ha, hb⟩ := h
                  subst ha; subst hb
                  refine ⟨rfl, hguard.1, hguard.2, .inr (.inl ?_)⟩
                  exact ⟨tail, mt, hni, hsl, hf, rfl⟩
                · simp at h
              | none =>
                rw [hf] at h
                dsimp only [Option.getD] at h
                split at h
                · rename_i hguard
                  simp only [Except.ok.injEq, Option.some.injEq, Prod.mk.injEq] at h
                  obtain ⟨ha, hb⟩ := h
                  subst ha; subst hb
                  exact ⟨rfl, hguard.1, hguard.2, .inr (.inr rfl)⟩
                · simp at h
          · rw [if_neg hni] at h
            dsimp only [Option.getD] at h
            split at h
            · rename_i hguard
              simp only [Except.ok.injEq, Option.some.injEq, Prod.mk.injEq] at h
              obtain ⟨ha, hb⟩ := h
              subst ha; subst hb
              exact ⟨rfl, hguard.1, hguard.2, .inr (.inr rfl)⟩
            · simp at h

theorem actualScanMatches_notToC (env : RegexEnv) (doc : Bytes)
    (sf la : Nat) (chk : Bytes → Bool) (ms : List (Nat × Nat)) (r : Nat × Nat)
    (h : actualScanMatches env doc sf la chk ms = .ok (some r)) :
    isInToc env doc r.1 = .ok false := by
  induction ms with
  | nil => simp [actualScanMatches] at h
  | cons m rest ih =>
    unfold actualScanMatches at h
    dsimp only at h
    cases htoc : isInToc env doc (sf + m.1) with
    | error e => rw [htoc] at h; simp at h
    | ok b =>
      rw [htoc] at h
      cases b with
      | true => exact ih h
      | false =>
        dsimp only at h
        cases hsl : rSlice doc (sf + m.2) (min (sf + m.2 + la) doc.length) with
        | error e => rw [hsl] at h; simp at h
        | ok preview =>
          rw [hsl] at h
          dsimp only at h
          by_cases hc : chk preview
          · rw [if_pos hc] at h
            simp only [Except.ok.injEq, Option.some.injEq] at h
            rw [← h]
            exact htoc
          · rw [if_neg hc] at h
            exact ih h

theorem actualScanPatterns_notToC (env : RegexEnv) (doc : Bytes)
    (sf la : Nat) (chk : Bytes → Bool) (ps : List Bytes) (r : Nat × Nat)
    (h : actualScanPatterns env doc sf la chk ps = .ok (some r)) :
    isInToc env doc r.1 = .ok false := by
  induction ps with
  | nil => simp [actualScanPatterns] at h
  | cons p rest ih =>
    unfold actualScanPatterns at h
    by_cases hok : env.newOk p
    · rw [if_pos hok] at h
      cases hsl : rSlice doc sf doc.length with
      | error e => rw [hsl] at h; simp at h
      | ok tail =>
        rw [hsl] at h
        dsimp only at h
        cases hm : actualScanMatches env doc sf la chk (env.findIter p tail) with
        | error e => rw [hm] at h; simp at h
        | ok r0 =>
          rw [hm] at h
          cases r0 with
          | some r1 =>
            simp only [Except.ok.injEq, Option.some.injEq] at h
            rw [← h]
            exact actualScanMatches_notToC env doc sf la chk _ r1 hm
          | none => exact ih h
    · rw [if_neg hok] at h
      exact ih h

theorem actualItem8Extract_notToC (env : RegexEnv) (minSize : Nat) (doc : Bytes)
    (a b : Nat) (h : actualItem8Extract env minSize doc = .ok (some (a, b))) :
    isInToc env doc a = .ok false := by
  unfold actualItem8Extract at h
  by_cases hok : env.newOk pPart2
  · rw [if_pos hok] at h
    dsimp only at h
    generalize hsf :
      (match env.findIter pPart2 doc with
        | [] => 0
        | x :: _ => x.1) = sf at h
    cases hm1 : actualScanPatterns env doc sf 5000 actualMainCheck item8Patterns with
    | error e => rw [hm1] at h; simp at h
    | ok r0 =>
      rw [hm1] at h
      cases r0 with
      | some r =>
        dsimp only at h
        cases hend : findFirstEndFrom env doc r.2 actualEndPatterns with
        | error e => rw [hend] at h; simp at h
        | ok e? =>
          rw [hend] at h
          dsimp only at h
          split at h
          · simp only [Except.ok.injEq, Option.some.injEq, Prod.mk.injEq] at h
            obtain ⟨ha, _⟩ := h
            rw [← ha]
            exact actualScanPatterns_notToC env doc sf 5000 actualMainCheck _ r hm1
          · simp at h
      | none =>
        dsimp only at h
        cases hm2 : actualScanPatterns env doc sf 10000 actualBroaderCheck broaderPatterns with
        | error e => rw [hm2] at h; simp at h
        | ok r2 =>
          rw [hm2] at h
          cases r2 with
          | some r =>
            dsimp only at h
            cases hend : findFirstEndFrom env doc r.2 actualEndPatterns with
            | error e => rw [hend] at h; simp at h
            | ok e? =>
              rw [hend] at h
              dsimp only at h
              split at h
              · simp only [Except.ok.injEq, Option.some.injEq, Prod.mk.injEq] at h
                obtain ⟨ha, _⟩ := h
                rw [← ha]
                exact actualScanPatterns_notToC env doc sf 10000 actualBroaderCheck _ r hm2
              · simp at h
          | none => simp at h
  · rw [if_neg hok] at h
    simp at h

theorem partIIScan_notToC (env : RegexEnv) (minSize : Nat) (doc : Bytes)
    (sf : Nat) (ms : List (Nat × Nat)) (r : Nat × Nat)
    (h : partIIScan env minSize doc sf ms = .ok (some r)) :
    isInToc env doc r.1 = .ok false := by
  induction ms with
  | nil => simp [partIIScan] at h
  | cons m rest ih =>
    unfold partIIScan at h
    dsimp only at h
    cases htoc : isInToc env doc (sf + m.1) with
    | error e => rw [htoc] at h; simp at h
    | ok b =>
      rw [htoc] at h
      cases b with
      | true => exact ih h
      | false =>
        dsimp only at h
        cases hsl : rSlice doc (sf + m.1 + (m.2 - m.1))
            (min (sf + m.1 + (m.2 - m.1) + 5000) doc.length) with
        | error e => rw [hsl] at h; simp at h
        | ok preview =>
          rw [hsl] at h
          dsimp only at h
          by_cases hc : partIICheck preview
          · rw [if_pos hc] at h
            cases hend : findFirstEndFrom env doc (min (sf + m.1 + 1000) doc.length)
                tocEndPatterns with
            | error e => rw [hend] at h; simp at h
            | ok e? =>
              rw [hend] at h
              dsimp only at h
              split at h
              · simp only [Except.ok.injEq, Option.some.injEq] at h
                rw [← h]
                exact htoc
              · exact ih h
          · rw [if_neg hc] at h
            exact ih h

theorem partIIExtract_notToC (env : RegexEnv) (minSize : Nat) (doc : Bytes)
    (a b : Nat) (h : partIIExtract env minSize doc = .ok (some (a, b))) :
    isInToc env doc a = .ok false := by
  unfold partIIExtract at h
  by_cases hok : env.newOk pPart2
  · rw [if_pos hok] at h
    cases hf : env.find pPart2 doc with
    | none => rw [hf] at h; simp at h
    | some p2 =>
      rw [hf] at h
      dsimp only at h
      by_cases hok2 : env.newOk pItem8Short
      · rw [if_pos hok2] at h
        cases hsl : rSlice doc p2.1 doc.length with
        | error e => rw [hsl] at h; simp at h
        | ok tail =>
          rw [hsl] at h
          dsimp only at h
          exact partIIScan_notToC env minSize doc p2.1 _ (a, b) h
      · rw [if_neg hok2] at h
        simp at h
  · rw [if_neg hok] at h
    simp at h

theorem finStmtBest_notToC (env : RegexEnv) (doc : Bytes)
    (ps : List Bytes) (best : Option (Nat × Nat)) (r : Nat × Nat)
    (hbest : ∀ c, best = some c → isInToc env doc c.1 = .ok false)
    (h : finStmtBest env doc ps best = .ok (some r)) :
    isInToc env doc r.1 = .ok false := by
  induction ps generalizing best with
  | nil =>
    unfold finStmtBest at h
    simp only [Except.ok.injEq] at h
    exact hbest r h
  | cons p rest ih =>
    unfold finStmtBest at h
    by_cases hok : env.newOk p
    · rw [if_pos hok] at h
      cases hf : env.find p doc with
      | some m =>
        rw [hf] at h
        dsimp only at h
        cases htoc : isInToc env doc m.1 with
        | error e => rw [htoc] at h; simp at h
        | ok b =>
          rw [htoc] at h
          cases b with
          | true => exact ih best hbest h
          | false =>
            dsimp only at h
            refine ih _ ?_ h
            intro c hc
            cases best with
            | some cur =>
              dsimp only at hc
              by_cases hlt : m.1 < cur.1
              · rw [if_pos hlt] at hc
                cases hc
                exact htoc
              · rw [if_neg hlt] at hc
                injection hc with hc
                subst hc
                exact hbest _ rfl
            | none =>
              cases hc
              exact htoc
      | none =>
        rw [hf] at h
        exact ih best hbest h
    · rw [if_neg hok] at h
      exact ih best hbest h

theorem finStmtExtract_notToC (env : RegexEnv) (minSize : Nat) (doc : Bytes)
    (a b : Nat) (h : finStmtExtract env minSize doc = .ok (some (a, b))) :
    isInToc env doc a = .ok false := by
  unfold finStmtExtract at h
  cases hb : finStmtBest env doc statementPatterns none with
  | error e => rw [hb] at h; simp at h
  | ok r =>
    rw [hb] at h
    cases r with
    | none => simp at h
    | some best =>
      dsimp only at h
      cases hend : finStmtEnd env minSize doc best.1 finStmtEndPatterns with
      | error e => rw [hend] at h; simp at h
      | ok e? =>
        rw [hend] at h
        simp only [Except.ok.injEq, Option.some.injEq, Prod.mk.injEq] at h
        rw [← h.1]
        exact finStmtBest_notToC env doc statementPatterns none best
          (by intro c hc; cases hc) hb

theorem tryStrategies_ok_spec (env : RegexEnv) (minSize : Nat) (doc : Bytes)
    (y : Nat) (n t : Bytes) (L : List ExtractionStrategy)
    (dbg dbg2 : List (String × String)) (sec : ExtractedSection)
    (h : tryStrategies env minSize doc y n t L dbg = .ok (.ok sec, dbg2)) :
    ∃ a b, a < b ∧ minSize ≤ b - a ∧
      sec.content = (doc.drop a).take (b - a) ∧
      fullSpanValid ((doc.drop a).take (b - a)) = true := by
  induction L generalizing dbg with
  | nil => simp [tryStrategies] at h
  | cons s rest ih =>
    unfold tryStrategies at h
    cases hx : s.extract env minSize doc with
    | error e => rw [hx] at h; simp at h
    | ok r =>
      rw [hx] at h
      cases r with
      | none => exact ih _ h
      | some ab =>
        obtain ⟨a, b⟩ := ab
        dsimp only at h
        split at h
        · exact ih _ h
        · rename_i hguard
          push_neg at hguard
          cases hsl : rSlice doc a b with
          | error e => rw [hsl] at h; simp at h
          | ok content =>
            rw [hsl] at h
            dsimp only at h
            by_cases hv : fullSpanValid content
            · rw [if_pos hv] at h
              simp only [Except.ok.injEq, Prod.mk.injEq, RResult.ok.injEq] at h
              obtain ⟨hsec, _⟩ := h
              have hc := rSlice_ok_eq hsl
              refine ⟨a, b, hguard.1, hguard.2, ?_, ?_⟩
              · rw [← hsec]
                exact hc
              · rw [← hc]
                exact hv
            · rw [if_neg hv] at h
              exact ih _ h

theorem tryStrategies_err_eq (env : RegexEnv) (minSize : Nat) (doc : Bytes)
    (y : Nat) (n t : Bytes) (L : List ExtractionStrategy)
    (dbg dbg2 : List (String × String)) (e : ExtractError)
    (h : tryStrategies env minSize doc y n t L dbg = .ok (.err e, dbg2)) :
    e = .SectionNotFound "Item 8" := by
  induction L generalizing dbg with
  | nil =>
    unfold tryStrategies at h
    simp only [Except.ok.injEq, Prod.mk.injEq, RResult.err.injEq] at h
    exact h.1.symm
  | cons s rest ih =>
    unfold tryStrategies at h
    cases hx : s.extract env minSize doc with
    | error e0 => rw [hx] at h; simp at h
    | ok r =>
      rw [hx] at h
      cases r with
      | none => exact ih _ h
      | some ab =>
        obtain ⟨a, b⟩ := ab
        dsimp only at h
        split at h
        · exact ih _ h
        · cases hsl : rSlice doc a b with
          | error e0 => rw [hsl] at h; simp at h
          | ok content =>
            rw [hsl] at h
            dsimp only at h
            by_cases hv : fullSpanValid content
            · rw [if_pos hv] at h
              simp at h
            · rw [if_neg hv] at h
              exact ih _ h

theorem insertDbg_keys_sub (dbg : List (String × String)) (k v x : String)
    (hx : x ∈ (insertDbg dbg k v).map Prod.fst) :
    x ∈ dbg.map Prod.fst ∨ x = k := by
  induction dbg with
  | nil => simpa [insertDbg] using hx
  | cons e rest ih =>
    unfold insertDbg at hx
    by_cases hk : e.1 = k
    · rw [if_pos hk] at hx
      simp only [List.map_cons, List.mem_cons] at hx ⊢
      rcases hx with hx | hx
      · exact .inl (.inl hx)
      · exact .inl (.inr hx)
    · rw [if_neg hk] at hx
      simp only [List.map_cons, List.mem_cons] at hx ⊢
      rcases hx with hx | hx
      · exact .inl (.inl hx)
      · rcases ih hx with hx2 | hx2
        · exact .inl (.inr hx2)
        · exact .inr hx2

theorem insertDbg_keys_nodup (dbg : List (String × String)) (k v : String)
    (h : (dbg.map Prod.fst).Nodup) :
    ((insertDbg dbg k v).map Prod.fst).Nodup := by
  induction dbg with
  | nil => simp [insertDbg]
  | cons e rest ih =>
    unfold insertDbg
    simp only [List.map_cons, List.nodup_cons] at h
    by_cases hk : e.1 = k
    · rw [if_pos hk]
      simp only [List.map_cons, List.nodup_cons]
      exact h
    · rw [if_neg hk]
      simp only [List.map_cons, List.nodup_cons]
      refine ⟨fun hmem => ?_, ih h.2⟩
      rcases insertDbg_keys_sub rest k v e.1 hmem with h2 | h2
      · exact h.1 h2
      · exact hk h2

theorem tryStrategies_dbg_spec (env : RegexEnv) (minSize : Nat) (doc : Bytes)
    (y : Nat) (n t : Bytes) (L : List ExtractionStrategy)
    (dbg dbg2 : List (String × String)) (r : RResult)
    (h : tryStrategies env minSize doc y n t L dbg = .ok (r, dbg2))
    (hnd : (dbg.map Prod.fst).Nodup) :
    (dbg2.map Prod.fst).Nodup ∧
      ∀ x ∈ dbg2.map Prod.fst,
        x ∈ dbg.map Prod.fst ∨ x ∈ L.map ExtractionStrategy.name := by
  induction L generalizing dbg with
  | nil =>
    unfold tryStrategies at h
    simp only [Except.ok.injEq, Prod.mk.injEq] at h
    rw [← h.2]
    exact ⟨hnd, fun x hx => .inl hx⟩
  | cons s rest ih =>
    have key : ∀ v2, tryStrategies env minSize doc y n t rest (insertDbg dbg s.name v2) = .ok (r, dbg2) →
        (dbg2.map Prod.fst).Nodup ∧
        ∀ x ∈ dbg2.map Prod.fst,
          x ∈ dbg.map Prod.fst ∨ x ∈ (s :: rest).map ExtractionStrategy.name := by
      intro v2 h2
      obtain ⟨hnd2, hsub2⟩ := ih _ h2 (insertDbg_keys_nodup _ _ _ hnd)
      refine ⟨hnd2, fun x hx => ?_⟩
      rcases hsub2 x hx with h3 | h3
      · rcases insertDbg_keys_sub dbg s.name v2 x h3 with h4 | h4
        · exact .inl h4
        · exact .inr (by simp [h4])
      · exact .inr (by simp [h3])
    unfold tryStrategies at h
    cases hx : s.extract env minSize doc with
    | error e0 => rw [hx] at h; simp at h
    | ok r0 =>
      rw [hx] at h
      cases r0 with
      | none => exact key _ h
      | some ab =>
        obtain ⟨a, b⟩ := ab
        dsimp only at h
        split at h
        · exact key _ h
        · cases hsl : rSlice doc a b with
          | error e0 => rw [hsl] at h; simp at h
          | ok content =>
            rw [hsl] at h
            dsimp only at h
            by_cases hv : fullSpanValid content
            · rw [if_pos hv] at h
              simp only [Except.ok.injEq, Prod.mk.injEq] at h
              rw [← h.2]
              exact ⟨hnd, fun x hx2 => .inl hx2⟩
            · rw [if_neg hv] at h
              exact key _ h

theorem tryStrategies_restamp (env : RegexEnv) (minSize : Nat) (doc : Bytes)
    (y1 : Nat) (n1 t1 : Bytes) (y2 : Nat) (n2 t2 : Bytes)
    (L : List ExtractionStrategy) (dbg : List (String × String)) :
    tryStrategies env minSize doc y1 n1 t1 L dbg =
      Except.map (fun p => (restampR y1 n1 t1 p.1, p.2))
        (tryStrategies env minSize doc y2 n2 t2 L dbg) := by
  induction L generalizing dbg with
  | nil => simp [tryStrategies, restampR, Except.map]
  | cons s rest ih =>
    unfold tryStrategies
    cases hx : s.extract env minSize doc with
    | error e0 => simp [Except.map]
    | ok r0 =>
      cases r0 with
      | none => exact ih _
      | some ab =>
        obtain ⟨a, b⟩ := ab
        dsimp only
        split
        · exact ih _
        · cases hsl : rSlice doc a b with
          | error e0 => simp [Except.map]
          | ok content =>
            dsimp only
            by_cases hv : fullSpanValid content
            · simp only [if_pos hv]
              simp [Except.map, restampR, mkSection]
            · simp only [if_neg hv]
              exact ih _

theorem tryStrategies_step_none (env : RegexEnv) (minSize : Nat) (doc : Bytes)
    (y : Nat) (n t : Bytes) (s : ExtractionStrategy)
    (L : List ExtractionStrategy) (dbg : List (String × String))
    (h : strategyStep env minSize doc s = .ok none) :
    ∃ d2, tryStrategies env minSize doc y n t (s :: L) dbg =
      tryStrategies env minSize doc y n t L d2 := by
  unfold strategyStep at h
  cases hx : s.extract env minSize doc with
  | error e0 => rw [hx] at h; simp at h
  | ok r0 =>
    rw [hx] at h
    cases r0 with
    | none =>
      refine ⟨insertDbg dbg s.name "No match found", ?_⟩
      conv_lhs => unfold tryStrategies
      rw [hx]
    | some ab =>
      obtain ⟨a, b⟩ := ab
      dsimp only at h
      by_cases hguard : b ≤ a ∨ b - a < minSize
      · refine ⟨insertDbg dbg s.name
          ("Section too small: " ++ toString (b - a) ++ " bytes"), ?_⟩
        conv_lhs => unfold tryStrategies
        rw [hx]
        dsimp only
        rw [if_pos hguard]
      · rw [if_neg hguard] at h
        cases hsl : rSlice doc a b with
        | error e0 => rw [hsl] at h; simp at h
        | ok content =>
          rw [hsl] at h
          dsimp only at h
          by_cases hv : fullSpanValid content
          · rw [if_pos hv] at h
            simp at h
          · refine ⟨insertDbg dbg s.name
              "Found section lacks financial content indicators", ?_⟩
            conv_lhs => unfold tryStrategies
            rw [hx]
            dsimp only
            rw [if_neg hguard, hsl]
            dsimp only
            rw [if_neg hv]

theorem tryStrategies_step_some (env : RegexEnv) (minSize : Nat) (doc : Bytes)
    (y : Nat) (n t : Bytes) (s : ExtractionStrategy)
    (L : List ExtractionStrategy) (dbg : List (String × String)) (c : Bytes)
    (h : strategyStep env minSize doc s = .ok (some c)) :
    tryStrategies env minSize doc y n t (s :: L) dbg =
      .ok (.ok (mkSection c y n t), dbg) := by
  unfold strategyStep at h
  cases hx : s.extract env minSize doc with
  | error e0 => rw [hx] at h; simp at h
  | ok r0 =>
    rw [hx] at h
    cases r0 with
    | none => simp at h
    | some ab =>
      obtain ⟨a, b⟩ := ab
      dsimp only at h
      by_cases hguard : b ≤ a ∨ b - a < minSize
      · rw [if_pos hguard] at h
        simp at h
      · rw [if_neg hguard] at h
        cases hsl : rSlice doc a b with
        | error e0 => rw [hsl] at h; simp at h
        | ok content =>
          rw [hsl] at h
          dsimp only at h
          by_cases hv : fullSpanValid content
          · rw [if_pos hv] at h
            simp only [Except.ok.injEq, Option.some.injEq] at h
            subst h
            conv_lhs => unfold tryStrategies
            rw [hx]
            dsimp only
            rw [if_neg hguard, hsl]
            dsimp only
            rw [if_pos hv]
          · rw [if_neg hv] at h
            simp at h

theorem tryStrategies_prefix (env : RegexEnv) (minSize : Nat) (doc : Bytes)
    (y : Nat) (n t : Bytes) (pre : List ExtractionStrategy)
    (s : ExtractionStrategy) (post : List ExtractionStrategy) (c : Bytes)
    (hpre : ∀ s0 ∈ pre, strategyStep env minSize doc s0 = .ok none)
    (hs : strategyStep env minSize doc s = .ok (some c)) :
    ∀ dbg, ∃ d2, tryStrategies env minSize doc y n t (pre ++ s :: post) dbg =
      .ok (.ok (mkSection c y n t), d2) := by
  induction pre with
  | nil =>
    intro dbg
    exact ⟨dbg, tryStrategies_step_some env minSize doc y n t s post dbg c hs⟩
  | cons p pre2 ih =>
    intro dbg
    obtain ⟨d2, hd2⟩ := tryStrategies_step_none env minSize doc y n t p
      (pre2 ++ s :: post) dbg (hpre p (List.mem_cons_self _ _))
    obtain ⟨d3, hd3⟩ := ih (fun s0 hs0 => hpre s0 (List.mem_cons_of_mem _ hs0)) d2
    exact ⟨d3, by rw [List.cons_append, hd2, hd3]⟩

/-! ### Claim theorems -/

/-- C5: for every input, an `ExtractedSection` is returned by
`extract_item_8` only when both validation gates succeeded on the resolved
span: the end is strictly greater than the start, the size is at least the
configured minimum, and the full span passes the financial-content
validation; the returned content is exactly that span.  No
partially-validated result is ever returned. -/
theorem claim_C5_both_gates (env : RegexEnv) (envVar : Option Bytes)
    (doc : Bytes) (y : Nat) (n t : Bytes) (sec : ExtractedSection)
    (h : extractItem8 env envVar doc y n t = .ok (.ok sec)) :
    ∃ a b, a < b ∧ getMinSectionSize envVar ≤ b - a ∧
      sec.content = (doc.drop a).take (b - a) ∧
      fullSpanValid ((doc.drop a).take (b - a)) = true := by
  unfold extractItem8 at h
  cases hd : extractItem8Debug env envVar doc y n t with
  | error e => rw [hd] at h; simp [Except.map] at h
  | ok p =>
    rw [hd] at h
    obtain ⟨r, d⟩ := p
    simp only [Except.map, Except.ok.injEq] at h
    subst h
    exact tryStrategies_ok_spec env (getMinSectionSize envVar) doc y n t
      defaultStrategies [] d sec hd

/-- C5 witness: the hypotheses of `claim_C5_both_gates` hold on the concrete
run `extractItem8 envC5 none docC5`, and the gates therefore hold for it. -/
theorem claim_C5_both_gates_witness :
    extractItem8 envC5 none docC5 2023 [] [] =
      .ok (.ok (mkSection docC5 2023 [] [])) ∧
    ∃ a b, a < b ∧ getMinSectionSize none ≤ b - a ∧
      (mkSection docC5 2023 [] []).content = (docC5.drop a).take (b - a) ∧
      fullSpanValid ((docC5.drop a).take (b - a)) = true :=
  ⟨by decide,
   claim_C5_both_gates envC5 none docC5 2023 [] [] (mkSection docC5 2023 [] [])
     (by decide)⟩

/-- C9: the metadata arguments (filing year, company name, ticker) are
stamped verbatim onto the returned section and do not influence matching:
two invocations on the same document and configuration that differ only in
the metadata arguments succeed or fail identically and return identical
content, and re-stamping one result's metadata gives the other. -/
theorem claim_C9_metadata_invariance (env : RegexEnv) (envVar : Option Bytes)
    (doc : Bytes) (y1 : Nat) (n1 t1 : Bytes) (y2 : Nat) (n2 t2 : Bytes) :
    extractItem8 env envVar doc y1 n1 t1 =
      restamp y1 n1 t1 (extractItem8 env envVar doc y2 n2 t2) := by
  unfold extractItem8 extractItem8Debug restamp
  rw [tryStrategies_restamp env (getMinSectionSize envVar) doc y1 n1 t1
    y2 n2 t2 defaultStrategies []]
  cases tryStrategies env (getMinSectionSize envVar) doc y2 n2 t2
      defaultStrategies [] with
  | error e => simp [Except.map]
  | ok p => simp [Except.map]

/-- C7: strategies are tried in the fixed priority order of
`SectionExtractor::new`, and the first strategy whose span passes both
orchestrator gates wins: if every earlier strategy fails to produce a
validated span (without panicking) and a later strategy produces one,
`extract_item_8` returns that later strategy's validated result. -/
theorem claim_C7_fallback (env : RegexEnv) (envVar : Option Bytes)
    (doc : Bytes) (y : Nat) (n t : Bytes) (pre : List ExtractionStrategy)
    (s : ExtractionStrategy) (post : List ExtractionStrategy) (c : Bytes)
    (hsplit : defaultStrategies = pre ++ s :: post)
    (hpre : ∀ s0 ∈ pre,
      strategyStep env (getMinSectionSize envVar) doc s0 = .ok none)
    (hs : strategyStep env (getMinSectionSize envVar) doc s = .ok (some c)) :
    extractItem8 env envVar doc y n t = .ok (.ok (mkSection c y n t)) := by
  unfold extractItem8 extractItem8Debug
  rw [hsplit]
  obtain ⟨d2, hd2⟩ := tryStrategies_prefix env (getMinSectionSize envVar) doc
    y n t pre s post c hpre hs []
  rw [hd2]
  simp [Except.map]

/-- C7 witness: on `docC7` the first five strategies of the chain fail, the
final financial-statement strategy produces a validated span, and
`extract_item_8` returns its result. -/
theorem claim_C7_fallback_witness :
    (∀ s0 ∈ [ExtractionStrategy.toc, .actualItem8, .pattern standardStrategy,
        .toc, .partII],
      strategyStep envC7 (getMinSectionSize none) docC7 s0 = .ok none) ∧
    strategyStep envC7 (getMinSectionSize none) docC7 .financialStatement =
      .ok (some docC7) ∧
    extractItem8 envC7 none docC7 2023 [] [] =
      .ok (.ok (mkSection docC7 2023 [] [])) :=
  ⟨by decide, by decide,
   claim_C7_fallback envC7 none docC7 2023 [] []
     [.toc, .actualItem8, .pattern standardStrategy, .toc, .partII]
     .financialStatement [] docC7 (by decide) (by decide) (by decide)⟩

/-- C3 counterexample: on `docC3` the financial-statement strategy finds a
span that fails the minimum-size gate (38 bytes, recorded in the diagnostic
map), yet the returned error is the generic `SectionNotFound("Item 8")` —
`ExtractError` has no `SectionTooSmall` or `ContentValidationFailed`
variant at all. -/
theorem claim_C3_counterexample :
    extractItem8Debug envC3 none docC3 2023 [] [] =
      .ok (.err (.SectionNotFound "Item 8"),
        [("ToC Strategy", "No match found"),
         ("Actual Item 8 Content Strategy", "No match found"),
         ("Standard Item 8 Strategy", "No match found"),
         ("Part II Strategy", "No match found"),
         ("Financial Statement Strategy", "Section too small: 38 bytes")]) := by
  decide

/-- C3 amended: a span below the configured minimum is rejected with a
per-strategy "Section too small" diagnostic and extraction moves on; every
failing call of `extract_item_8` returns the single error
`SectionNotFound("Item 8")` — no `SectionTooSmall` variant exists. -/
theorem claim_C3_failure_is_SectionNotFound (env : RegexEnv)
    (envVar : Option Bytes) (doc : Bytes) (y : Nat) (n t : Bytes)
    (e : ExtractError)
    (h : extractItem8 env envVar doc y n t = .ok (.err e)) :
    e = .SectionNotFound "Item 8" := by
  unfold extractItem8 at h
  cases hd : extractItem8Debug env envVar doc y n t with
  | error e0 => rw [hd] at h; simp [Except.map] at h
  | ok p =>
    rw [hd] at h
    obtain ⟨r, d⟩ := p
    simp only [Except.map, Except.ok.injEq] at h
    subst h
    exact tryStrategies_err_eq env (getMinSectionSize envVar) doc y n t
      defaultStrategies [] d e hd

/-- C3 witness: the failing run on `docC3` returns exactly
`SectionNotFound("Item 8")`. -/
theorem claim_C3_failure_witness :
    extractItem8 envC3 none docC3 2023 [] [] =
      .ok (.err (.SectionNotFound "Item 8")) ∧
    (ExtractError.SectionNotFound "Item 8") = .SectionNotFound "Item 8" :=
  ⟨by decide,
   claim_C3_failure_is_SectionNotFound envC3 none docC3 2023 [] []
     (.SectionNotFound "Item 8") (by decide)⟩

/-- The debug map accumulated by the all-failing run on `docC8`. -/
def dbgC8 : List (String × String) :=
  [("ToC Strategy", "No match found"),
   ("Actual Item 8 Content Strategy", "No match found"),
   ("Standard Item 8 Strategy", "No match found"),
   ("Part II Strategy", "No match found"),
   ("Financial Statement Strategy", "Section too small: 38 bytes")]

/-- C8 counterexample: all six strategy attempts on `docC8` fail, but the
diagnostic map has only five entries (the ToC strategy appears twice under
one name), and the returned typed failure is `SectionNotFound("Item 8")`,
whose payload carries no per-strategy enumeration — the map is only
logged. -/
theorem claim_C8_counterexample :
    extractItem8Debug envC8 none docC8 2023 [] [] =
      .ok (.err (.SectionNotFound "Item 8"), dbgC8) ∧
    dbgC8.length = 5 ∧ defaultStrategies.length = 6 := by
  decide

/-- C8 amended: on failure the typed error is always
`SectionNotFound("Item 8")` with no diagnostic payload; the separately
accumulated (and only logged) diagnostic map is keyed by strategy name, so
its keys are distinct and drawn from the strategy chain's names —
duplicate-named strategies share one entry. -/
theorem claim_C8_diagnostics (env : RegexEnv) (envVar : Option Bytes)
    (doc : Bytes) (y : Nat) (n t : Bytes) (r : RResult)
    (dbg : List (String × String))
    (h : extractItem8Debug env envVar doc y n t = .ok (r, dbg)) :
    (∀ e, r = .err e → e = .SectionNotFound "Item 8") ∧
    (dbg.map Prod.fst).Nodup ∧
    ∀ x ∈ dbg.map Prod.fst,
      x ∈ defaultStrategies.map ExtractionStrategy.name := by
  unfold extractItem8Debug at h
  refine ⟨fun e he => ?_, ?_⟩
  · rw [he] at h
    exact tryStrategies_err_eq env (getMinSectionSize envVar) doc y n t
      defaultStrategies [] dbg e h
  · obtain ⟨hnd, hsub⟩ := tryStrategies_dbg_spec env (getMinSectionSize envVar)
      doc y n t defaultStrategies [] dbg r h (by simp)
    refine ⟨hnd, fun x hx => ?_⟩
    rcases hsub x hx with h2 | h2
    · simp at h2
    · exact h2

/-- C8 witness: `claim_C8_diagnostics` applied to the concrete all-failing
run on `docC8`. -/
theorem claim_C8_diagnostics_witness :
    extractItem8Debug envC8 none docC8 2023 [] [] =
      .ok (.err (.SectionNotFound "Item 8"), dbgC8) ∧
    ((∀ e, (RResult.err (.SectionNotFound "Item 8") : RResult) = .err e →
        e = .SectionNotFound "Item 8") ∧
     (dbgC8.map Prod.fst).Nodup ∧
     ∀ x ∈ dbgC8.map Prod.fst,
       x ∈ defaultStrategies.map ExtractionStrategy.name) :=
  ⟨by decide,
   claim_C8_diagnostics envC8 none docC8 2023 [] []
     (.err (.SectionNotFound "Item 8")) dbgC8 (by decide)⟩

set_option maxRecDepth 400000 in
/-- C2 counterexample: the ToC-guided strategy resolves the link target
without consulting the ToC discriminator, so for `docC2` — whose anchor sits
inside the table-of-contents region — `extract_item_8` returns content
starting at byte 51, a position `is_in_table_of_contents` classifies as
inside the ToC. -/
theorem claim_C2_counterexample :
    extractItem8 envC2 none docC2 2023 [] [] =
      .ok (.ok (mkSection ((docC2.drop 51).take 74) 2023 [] [])) ∧
    isInToc envC2 docC2 51 = .ok true := by
  decide

/-- C2 amended: in the four strategies that do consult the discriminator
(pattern-based, actual-Item-8, Part-II and financial-statement), a candidate
start that `is_in_table_of_contents` classifies as inside a ToC region is
never the chosen start of the produced span; the ToC-guided strategy does
not consult the discriminator, so its anchor target can violate this. -/
theorem claim_C2_discriminator_strategies (env : RegexEnv) (minSize : Nat)
    (doc : Bytes) :
    (∀ st a b, patternExtract env st minSize doc = .ok (some (a, b)) →
      isInToc env doc a = .ok false) ∧
    (∀ a b, actualItem8Extract env minSize doc = .ok (some (a, b)) →
      isInToc env doc a = .ok false) ∧
    (∀ a b, partIIExtract env minSize doc = .ok (some (a, b)) →
      isInToc env doc a = .ok false) ∧
    (∀ a b, finStmtExtract env minSize doc = .ok (some (a, b)) →
      isInToc env doc a = .ok false) := by
  refine ⟨fun st a b h => ?_,
    fun a b h => actualItem8Extract_notToC env minSize doc a b h,
    fun a b h => partIIExtract_notToC env minSize doc a b h,
    fun a b h => finStmtExtract_notToC env minSize doc a b h⟩
  obtain ⟨hs, _, _, _⟩ := patternExtract_spec env st minSize doc a b h
  exact patFindStart_notToC env doc st.startPatterns a hs

set_option maxRecDepth 400000 in
/-- C2 witness: `claim_C2_discriminator_strategies` applied to a concrete
successful pattern-strategy run. -/
theorem claim_C2_discriminator_witness :
    patternExtract envC2w stC2w 50 docC2w = .ok (some (0, 120)) ∧
    isInToc envC2w docC2w 0 = .ok false :=
  ⟨by decide,
   (claim_C2_discriminator_strategies envC2w 50 docC2w).1 stC2w 0 120
     (by decide)⟩

set_option maxRecDepth 400000 in
/-- C1 counterexample: a successful extraction on `docC1` whose returned
content contains the start header's matched text (the span begins at the
start marker's match position), while the end marker's text `PART III` is
excluded. -/
theorem claim_C1_counterexample :
    extractItem8 envC1 none docC1 2023 [] [] =
      .ok (.ok (mkSection (docC1.take 108) 2023 [] [])) ∧
    isInfixB item8Header (docC1.take 108) = true ∧
    isInfixB (strB "PART III") (docC1.take 108) = false := by
  decide

/-- C1 amended: a span produced by the pattern strategy starts exactly at a
start pattern's match position (so the content includes the start marker's
matched text as its prefix), and its end is the chosen end match's start
position (so the content excludes the end marker's matched text), the
next-item heading's start, or the `start + 300000` fallback. -/
theorem claim_C1_span_structure (env : RegexEnv)
    (st : PatternExtractionStrategy) (minSize : Nat) (doc : Bytes) (a b : Nat)
    (h : patternExtract env st minSize doc = .ok (some (a, b))) :
    (∃ p ∈ st.startPatterns, ∃ m ∈ env.findIter p doc, m.1 = a) ∧ a < b ∧
    ((∃ p ∈ st.endPatterns, ∃ tail mt,
        rSlice doc (a + 100) doc.length = .ok tail ∧
        env.find p tail = some mt ∧ b = a + 100 + mt.1) ∨
     (∃ tail mt, env.newOk pNextItem = true ∧
        rSlice doc (a + 1000) doc.length = .ok tail ∧
        env.find pNextItem tail = some mt ∧ b = a + 1000 + mt.1) ∨
     b = min (a + 300000) doc.length) := by
  obtain ⟨hs, hab, _, hend⟩ := patternExtract_spec env st minSize doc a b h
  exact ⟨patFindStart_mem env doc st.startPatterns a hs, hab, hend⟩

set_option maxRecDepth 400000 in
/-- C1 witness: `claim_C1_span_structure` applied to a concrete successful
pattern-strategy run whose end comes from an end-rule match at byte 120. -/
theorem claim_C1_span_structure_witness :
    patternExtract envC1w stC1w 50 docC1w = .ok (some (0, 120)) ∧
    ((∃ p ∈ stC1w.startPatterns, ∃ m ∈ envC1w.findIter p docC1w, m.1 = 0) ∧
     0 < 120 ∧
     ((∃ p ∈ stC1w.endPatterns, ∃ tail mt,
         rSlice docC1w (0 + 100) docC1w.length = .ok tail ∧
         envC1w.find p tail = some mt ∧ 120 = 0 + 100 + mt.1) ∨
      (∃ tail mt, envC1w.newOk pNextItem = true ∧
         rSlice docC1w (0 + 1000) docC1w.length = .ok tail ∧
         envC1w.find pNextItem tail = some mt ∧ 120 = 0 + 1000 + mt.1) ∨
      (120 : Nat) = min (0 + 300000) docC1w.length)) :=
  ⟨by decide, claim_C1_span_structure envC1w stC1w 50 docC1w 0 120 (by decide)⟩

set_option maxRecDepth 400000 in
/-- C4 counterexample: on `docC4` the standard pattern strategy's end scan
returns byte 120, the match of the first end rule tried (the full Item 9
heading), even though the lower-ranked bare `item 9` end rule matches
earlier, at absolute byte 105 — the resolver does not select the earliest
absolute position among all rules that match. -/
theorem claim_C4_counterexample :
    patternExtract envC4 standardStrategy 50 docC4 = .ok (some (0, 120)) ∧
    pItem9Bare ∈ standardStrategy.endPatterns ∧
    envC4.find pItem9Bare ((docC4.drop 100).take 82) = some (5, 12) ∧
    rSlice docC4 (0 + 100) docC4.length = .ok ((docC4.drop 100).take 82) ∧
    0 + 100 + 5 < 120 := by
  decide

/-- C4 amended: the boundary resolver of `PatternExtractionStrategy` tries
end rules in rank order and the first rule that matches after
`start + 100` fixes the end position, regardless of whether a lower-ranked
rule would match at an earlier absolute position. -/
theorem claim_C4_first_rule_wins (env : RegexEnv) (doc : Bytes) (s : Nat)
    (p : Bytes) (rest : List Bytes) (tail : Bytes) (mt : Nat × Nat)
    (hok : env.newOk p = true)
    (hsl : rSlice doc (s + 100) doc.length = .ok tail)
    (hf : env.find p tail = some mt) :
    patFindEnd env doc s (p :: rest) = .ok (some (s + 100 + mt.1)) := by
  unfold patFindEnd
  rw [if_pos hok, hsl]
  dsimp only
  rw [hf]

set_option maxRecDepth 400000 in
/-- C4 witness: `claim_C4_first_rule_wins` applied to the concrete end scan
on `docC4` with the standard end rules. -/
theorem claim_C4_first_rule_wins_witness :
    envC4.newOk pItem9FullH = true ∧
    rSlice docC4 (0 + 100) docC4.length = .ok ((docC4.drop 100).take 82) ∧
    envC4.find pItem9FullH ((docC4.drop 100).take 82) = some (20, 82) ∧
    patFindEnd envC4 docC4 0
      (pItem9FullH :: [pItem9FullText, pItem9Anchor, pItem9Punct, pItem9Bare,
        pItem9BareChanges, pEndPartIIIH]) = .ok (some (0 + 100 + 20)) :=
  ⟨by decide, by decide, by decide,
   claim_C4_first_rule_wins envC4 docC4 0 pItem9FullH
     [pItem9FullText, pItem9Anchor, pItem9Punct, pItem9Bare,
      pItem9BareChanges, pEndPartIIIH]
     ((docC4.drop 100).take 82) (20, 82) (by decide) (by decide) (by decide)⟩

/-- C6 counterexample: `extract_item_8` reads the ambient `MIN_SECTION_SIZE`
environment variable through `get_min_section_size`, so the same document
and the same oracle give different results when the variable changes —
the result is not independent of ambient process state. -/
theorem claim_C6_counterexample :
    extractItem8 envC6 none docC6 2023 [] [] ≠
      extractItem8 envC6 (some (strB "200")) docC6 2023 [] [] := by
  decide

/-- C6 amended: extraction is deterministic given the document, the
configuration and the ambient `MIN_SECTION_SIZE` value: any two invocations
whose environment variable parses to the same minimum return identical
results. -/
theorem claim_C6_deterministic_given_env (env : RegexEnv)
    (e1 e2 : Option Bytes) (doc : Bytes) (y : Nat) (n t : Bytes)
    (h : getMinSectionSize e1 = getMinSectionSize e2) :
    extractItem8 env e1 doc y n t = extractItem8 env e2 doc y n t := by
  unfold extractItem8 extractItem8Debug
  rw [h]

/-- C6 witness: `claim_C6_deterministic_given_env` applied with the variable
set to `"50"` versus unset — both parse to the default minimum of 50. -/
theorem claim_C6_deterministic_witness :
    getMinSectionSize (some (strB "50")) = getMinSectionSize none ∧
    extractItem8 envC6 (some (strB "50")) docC6 2023 [] [] =
      extractItem8 envC6 none docC6 2023 [] [] :=
  ⟨by decide,
   claim_C6_deterministic_given_env envC6 (some (strB "50")) none docC6
     2023 [] [] (by decide)⟩

/-- C10: on the 16-byte document `docC10` the validated start is byte 3, and
the end scan of the standard pattern strategy slices
`&html_content[3 + 100..]` past the end of the string, so `extract_item_8`
panics instead of returning a value — the modelled run ends in the slice
panic. -/
theorem claim_C10_panic :
    extractItem8 envC10 none docC10 2023 [] [] = .error slicePanic := by
  decide
